import Mathlib

/-!
Shallow embedding of the SM-Furnishing backend (server.js): the OTP
ledger (POST /api/send-otp, POST /api/verify-otp) and the cart engine
(GET /api/cart, POST /api/cart/add, PUT /api/cart/update,
DELETE /api/cart/item/:productId, DELETE /api/cart/clear).

Modelling conventions:
* MongoDB collections are lists of records paired with a fresh-id
  counter; `findOne` is `List.find?` (first match in natural order),
  `insertOne` appends and assigns the next id, `replaceOne`/`updateOne`/
  `deleteOne` act on the first `_id` match, `deleteMany` filters.
* Timestamps are integer milliseconds (`Int`); `new Date()` is a `now`
  parameter threaded into each handler.
* Quantities, stock and prices are `Int` (the JS numbers involved are
  integers and exact small decimals; the spec sets floating point aside).
* The random 6-digit code and the success of the email dispatch are
  parameters of `issueOtp` (the nondeterminism is externalized).
* Request-shape validation that precedes any store access and is not
  about the modelled fields (the email-format regex, ObjectId format)
  is outside the embedding; the JS falsiness check `!quantity` is kept
  as the `q = 0` test in `addItem`.
-/

/-! ## OTP ledger: data model and store primitives -/

structure OtpRecord where
  rid : Nat
  email : String
  otp : String
  createdAt : Int
  verified : Bool
  verifiedAt : Option Int
deriving Repr, DecidableEq

structure OtpStore where
  records : List OtpRecord
  nextId : Nat
deriving Repr, DecidableEq

/-- Models `otpCollection.deleteMany({ email: e })`. -/
def OtpStore.deleteManyByEmail (s : OtpStore) (e : String) : OtpStore :=
  { s with records := s.records.filter (fun r => !(r.email == e)) }

/-- Models `otpCollection.insertOne(otpRecord)`: appends, assigning a fresh id. -/
def OtpStore.insertOtp (s : OtpStore) (e code : String) (now : Int) :
    OtpRecord × OtpStore :=
  let r : OtpRecord :=
    { rid := s.nextId, email := e, otp := code, createdAt := now,
      verified := false, verifiedAt := none }
  (r, { records := s.records ++ [r], nextId := s.nextId + 1 })

/-- Models `email.toLowerCase()`. Defined over the character list with the same
per-character mapping as `String.toLower` so the kernel can evaluate it
(`String.map` is not kernel-reducible). -/
def jsToLower (s : String) : String := ⟨s.data.map Char.toLower⟩

/-- The `$set { verified: true, verifiedAt: new Date() }` update. -/
def markVerified (now : Int) (x : OtpRecord) : OtpRecord :=
  { x with verified := true, verifiedAt := some now }

/-- The filter of `otpCollection.findOne({email, otp, verified: false})`. -/
def otpMatches (e code : String) (r : OtpRecord) : Bool :=
  r.email == jsToLower e && r.otp == code && r.verified == false

/-- Models `otpCollection.findOne({ email: email.toLowerCase(), otp, verified: false })`. -/
def findOtp (s : OtpStore) (e code : String) : Option OtpRecord :=
  s.records.find? (otpMatches e code)

/-- Models `otpCollection.updateOne({_id: rid}, ...)` : rewrites the first id match. -/
def updateFirstById (rid : Nat) (f : OtpRecord → OtpRecord) :
    List OtpRecord → List OtpRecord
  | [] => []
  | r :: rest =>
    if r.rid = rid then f r :: rest else r :: updateFirstById rid f rest

/-- Models `otpCollection.deleteOne({_id: rid})` : removes the first id match. -/
def deleteFirstById (rid : Nat) : List OtpRecord → List OtpRecord
  | [] => []
  | r :: rest => if r.rid = rid then rest else r :: deleteFirstById rid rest

/-- Models `(now - otpRecord.createdAt) / 1000 / 60 > 10`, exact over the
integers: for integer millisecond timestamps the age in minutes exceeds
10 iff the difference exceeds 600000 ms. -/
def otpIsExpired (now createdAt : Int) : Bool := 600000 < now - createdAt

/-- Outcome of POST /api/send-otp past the field validation. -/
inductive IssueResult
  | sent        -- 200 "OTP sent successfully to your email"
  | sendFailed  -- sendEmail threw, caught: 500 "Error sending OTP"
deriving Repr, DecidableEq

/-- POST /api/send-otp (server.js 753-825): deletes every record for the
lowercased email, inserts the new record, then attempts the email
dispatch; a dispatch failure throws after the insert, so the caller sees
an error but the record stays. `code` is the generated 6-digit code and
`emailOk` whether `sendEmail` succeeds. -/
def issueOtp (s : OtpStore) (email code : String) (now : Int)
    (emailOk : Bool) : IssueResult × OtpStore :=
  let s1 := s.deleteManyByEmail (jsToLower email)
  let (_, s2) := s1.insertOtp (jsToLower email) code now
  if emailOk then (.sent, s2) else (.sendFailed, s2)

/-- Outcome of POST /api/verify-otp past the field validation. -/
inductive VerifyResult
  | invalid           -- 400 "Invalid or expired OTP"
  | expired           -- 400 "OTP has expired. Please request a new one."
  | verifiedOk (t : Int)  -- 200 "Email verified successfully", verifiedAt = t
deriving Repr, DecidableEq

/-- POST /api/verify-otp (server.js 827-890). -/
def verifyOtp (s : OtpStore) (email otp : String) (now : Int) :
    VerifyResult × OtpStore :=
  match findOtp s email otp with
  | none => (.invalid, s)
  | some r =>
    if otpIsExpired now r.createdAt then
      (.expired, { s with records := deleteFirstById r.rid s.records })
    else
      (.verifiedOk now,
        { s with records := updateFirstById r.rid (markVerified now) s.records })

/-! ## Cart engine: data model and store primitives -/

structure Product where
  pid : Nat
  name : String
  imageUrl : String
  price : Int
  stock : Int
deriving Repr, DecidableEq

/-- Models `productsCollection.findOne({ _id: new ObjectId(productId) })`. -/
def findProduct (catalog : List Product) (pid : Nat) : Option Product :=
  catalog.find? (fun p => p.pid == pid)

structure CartItem where
  productId : Nat
  productName : String
  productImage : String
  quantity : Int
  priceAtTime : Int
  addedAt : Int
deriving Repr, DecidableEq

structure Cart where
  cartId : Nat
  userId : Nat
  items : List CartItem
  totalAmount : Int
  totalItems : Int
  status : String
  createdAt : Int
  updatedAt : Int
deriving Repr, DecidableEq

structure CartStore where
  carts : List Cart
  nextId : Nat
deriving Repr, DecidableEq

/-- The filter of `cartCollection.findOne({ userId, status: 'active' })`. -/
def isActiveFor (u : Nat) (c : Cart) : Bool :=
  c.userId == u && c.status == "active"

/-- Models `cartCollection.findOne({ userId, status: 'active' })`. -/
def findActiveCart (s : CartStore) (u : Nat) : Option Cart :=
  s.carts.find? (isActiveFor u)

/-- First cartId match replaced, as `replaceOne({_id: cart._id}, cart)`. -/
def replaceCartById (c : Cart) : List Cart → List Cart
  | [] => []
  | x :: rest =>
    if x.cartId = c.cartId then c :: rest else x :: replaceCartById c rest

def CartStore.replaceCart (s : CartStore) (c : Cart) : CartStore :=
  { s with carts := replaceCartById c s.carts }

/-- Models `cartCollection.insertOne(cart)` followed by `cart._id = result.insertedId`. -/
def CartStore.insertCart (s : CartStore) (c : Cart) : Cart × CartStore :=
  let c1 := { c with cartId := s.nextId }
  (c1, { carts := s.carts ++ [c1], nextId := s.nextId + 1 })

/-- The empty cart document built when no active cart exists. -/
def freshCart (u : Nat) (now : Int) : Cart :=
  { cartId := 0, userId := u, items := [], totalAmount := 0, totalItems := 0,
    status := "active", createdAt := now, updatedAt := now }

/-- Models `cart.items.reduce((total, item) => total + item.priceAtTime * item.quantity, 0)`. -/
def computeTotalAmount (items : List CartItem) : Int :=
  items.foldl (fun t i => t + i.priceAtTime * i.quantity) 0

/-- Models `cart.items.reduce((total, item) => total + item.quantity, 0)`. -/
def computeTotalItems (items : List CartItem) : Int :=
  items.foldl (fun t i => t + i.quantity) 0

/-- The filter of
`cart.items.findIndex(item => item.productId.toString() === productId)`. -/
def isLineFor (pid : Nat) (i : CartItem) : Bool :=
  i.productId == pid

/-- The findIndex lookup followed by reading the element: the first
matching line. -/
def findItem (items : List CartItem) (pid : Nat) : Option CartItem :=
  items.find? (isLineFor pid)

/-- Assignment of `quantity += q` and `addedAt = now` at the first
matching index (the findIndex-then-mutate of POST /api/cart/add). -/
def bumpFirstItem (pid : Nat) (q now : Int) : List CartItem → List CartItem
  | [] => []
  | i :: rest =>
    if i.productId = pid then
      { i with quantity := i.quantity + q, addedAt := now } :: rest
    else i :: bumpFirstItem pid q now rest

/-- Assignment of `quantity = q` and `addedAt = now` at the first
matching index (the findIndex-then-mutate of PUT /api/cart/update). -/
def setFirstItemQty (pid : Nat) (q now : Int) : List CartItem → List CartItem
  | [] => []
  | i :: rest =>
    if i.productId = pid then
      { i with quantity := q, addedAt := now } :: rest
    else i :: setFirstItemQty pid q now rest

/-- Models `cart.items.splice(itemIndex, 1)` at the first matching index. -/
def removeFirstItem (pid : Nat) : List CartItem → List CartItem
  | [] => []
  | i :: rest => if i.productId = pid then rest else i :: removeFirstItem pid rest

/-- Error responses of the cart endpoints, carrying the dynamic values
interpolated into the response message. -/
inductive CartError
  | missingFields            -- 400 "Product ID and quantity are required"
  | invalidQuantity          -- 400 "Quantity must be greater than 0" / "cannot be negative"
  | productNotFound          -- 404 "Product not found"
  | insufficientStock (stock : Int)
      -- 400 `Only ${product.stock} items available in stock`
  | insufficientStockTotal (requested moreAvailable : Int)
      -- 400 `Cannot add ${quantity} items. Only ${product.stock - existingQty} more available`
  | cartNotFound             -- 404 "Cart not found"
  | itemNotFound             -- 404 "Item not found in cart"
deriving Repr, DecidableEq

/-- GET /api/cart (server.js 1486-1523). -/
def getOrCreateCart (s : CartStore) (u : Nat) (now : Int) : Cart × CartStore :=
  match findActiveCart s u with
  | some c => (c, s)
  | none => s.insertCart (freshCart u now)

/-- The new CartItem of POST /api/cart/add (server.js 1605-1612): the
`name`/`imageUrl`/`price` snapshot taken at add time. -/
def newLine (pid : Nat) (product : Product) (q now : Int) : CartItem :=
  { productId := pid, productName := product.name,
    productImage := product.imageUrl, quantity := q,
    priceAtTime := product.price, addedAt := now }

/-- The item-branch of POST /api/cart/add (server.js 1583-1623): bump an
existing line after the combined-quantity stock check, or append a new
snapshot line; then recompute both totals and stamp `updatedAt`. -/
def addItemToCart (product : Product) (pid : Nat) (q now : Int)
    (cart0 : Cart) : Except CartError Cart :=
  match findItem cart0.items pid with
  | some it =>
    if product.stock < it.quantity + q then
      .error (.insufficientStockTotal q (product.stock - it.quantity))
    else
      let items1 := bumpFirstItem pid q now cart0.items
      .ok { cart0 with
              items := items1
              totalAmount := computeTotalAmount items1
              totalItems := computeTotalItems items1
              updatedAt := now }
  | none =>
    let items1 := cart0.items ++ [newLine pid product q now]
    .ok { cart0 with
            items := items1
            totalAmount := computeTotalAmount items1
            totalItems := computeTotalItems items1
            updatedAt := now }

/-- POST /api/cart/add (server.js 1526-1649). The `q = 0` test is the JS
falsiness check `!quantity`; the `q ≤ 0` test is `quantity <= 0`. -/
def addItem (catalog : List Product) (s : CartStore) (u pid : Nat)
    (q now : Int) : Except CartError (Cart × CartStore) :=
  if q = 0 then .error .missingFields
  else if q ≤ 0 then .error .invalidQuantity
  else
    match findProduct catalog pid with
    | none => .error .productNotFound
    | some product =>
      if product.stock < q then .error (.insufficientStock product.stock)
      else
        match findActiveCart s u with
        | some cart0 =>
          match addItemToCart product pid q now cart0 with
          | .error e => .error e
          | .ok cart1 => .ok (cart1, s.replaceCart cart1)
        | none =>
          match addItemToCart product pid q now (freshCart u now) with
          | .error e => .error e
          | .ok cart1 => .ok (s.insertCart cart1)

/-- The guarded product lookup and stock check of PUT /api/cart/update
(server.js 1697-1715): it runs only when `0 < q`. -/
def updateStockCheck (catalog : List Product) (pid : Nat) (q : Int) :
    Except CartError Unit :=
  if 0 < q then
    match findProduct catalog pid with
    | none => .error .productNotFound
    | some product =>
      if product.stock < q then .error (.insufficientStock product.stock)
      else .ok ()
  else .ok ()

/-- PUT /api/cart/update (server.js 1652-1753): the product is looked up
(and its stock checked) only when `0 < q`; `q = 0` splices the line out. -/
def updateItem (catalog : List Product) (s : CartStore) (u pid : Nat)
    (q now : Int) : Except CartError (Cart × CartStore) :=
  if q < 0 then .error .invalidQuantity
  else
    match findActiveCart s u with
    | none => .error .cartNotFound
    | some cart =>
      match findItem cart.items pid with
      | none => .error .itemNotFound
      | some _ =>
        match updateStockCheck catalog pid q with
        | .error e => .error e
        | .ok _ =>
          let items1 :=
            if q = 0 then removeFirstItem pid cart.items
            else setFirstItemQty pid q now cart.items
          let cart1 := { cart with
                           items := items1
                           totalAmount := computeTotalAmount items1
                           totalItems := computeTotalItems items1
                           updatedAt := now }
          .ok (cart1, s.replaceCart cart1)

/-- DELETE /api/cart/item/:productId (server.js 1756-1825). -/
def removeItem (s : CartStore) (u pid : Nat) (now : Int) :
    Except CartError (Cart × CartStore) :=
  match findActiveCart s u with
  | none => .error .cartNotFound
  | some cart =>
    match findItem cart.items pid with
    | none => .error .itemNotFound
    | some _ =>
      let items1 := removeFirstItem pid cart.items
      let cart1 := { cart with
                       items := items1
                       totalAmount := computeTotalAmount items1
                       totalItems := computeTotalItems items1
                       updatedAt := now }
      .ok (cart1, s.replaceCart cart1)

/-- DELETE /api/cart/clear (server.js 1828-1867). -/
def clearCart (s : CartStore) (u : Nat) (now : Int) :
    Except CartError (Cart × CartStore) :=
  match findActiveCart s u with
  | none => .error .cartNotFound
  | some cart =>
    let cart1 := { cart with
                     items := []
                     totalAmount := 0
                     totalItems := 0
                     updatedAt := now }
    .ok (cart1, s.replaceCart cart1)

/-! ## Spec-side totals (the spec's Σ formulas, for the invariant claims) -/

/-- The spec's `sum(item.priceAtTime * item.quantity for item in items)`. -/
def specTotalAmount (items : List CartItem) : Int :=
  (items.map (fun i => i.priceAtTime * i.quantity)).sum

/-- The spec's `sum(item.quantity for item in items)`. -/
def specTotalItems (items : List CartItem) : Int :=
  (items.map (fun i => i.quantity)).sum

/-- Well-formed cart store: distinct document ids, all below the fresh
counter (what MongoDB's `_id` uniqueness provides). -/
def CartStore.WF (s : CartStore) : Prop :=
  s.carts.Pairwise (fun a b => a.cartId ≠ b.cartId) ∧
    ∀ c ∈ s.carts, c.cartId < s.nextId

/-! ## Supporting lemmas -/

theorem foldl_add_shift (f : CartItem → Int) :
    ∀ (l : List CartItem) (a : Int),
      l.foldl (fun t i => t + f i) a = a + (l.map f).sum
  | [], a => by simp
  | i :: rest, a => by
    simp only [List.foldl_cons, List.map_cons, List.sum_cons,
      foldl_add_shift f rest (a + f i)]
    ring

/-- The code's `reduce` total agrees with the spec's Σ formula. -/
theorem computeTotalAmount_eq (l : List CartItem) :
    computeTotalAmount l = specTotalAmount l := by
  simpa using foldl_add_shift (fun i => i.priceAtTime * i.quantity) l 0

/-- The code's `reduce` count agrees with the spec's Σ formula. -/
theorem computeTotalItems_eq (l : List CartItem) :
    computeTotalItems l = specTotalItems l := by
  simpa using foldl_add_shift (fun i => i.quantity) l 0

theorem find?_append_of_none {α : Type} {p : α → Bool} {l1 l2 : List α}
    (h : l1.find? p = none) : (l1 ++ l2).find? p = l2.find? p := by
  rw [List.find?_append, h, Option.none_or]

/-- Replacing the cart found by the active-cart query (with one keeping
its id, owner and status) leaves it as the cart that query returns. -/
theorem find?_replaceCartById (u : Nat) (c0 c : Cart)
    (hid : c.cartId = c0.cartId) (hc : isActiveFor u c = true) :
    ∀ l : List Cart, l.find? (isActiveFor u) = some c0 →
      l.Pairwise (fun a b => a.cartId ≠ b.cartId) →
      (replaceCartById c l).find? (isActiveFor u) = some c
  | [], hfind, _ => by simp [List.find?] at hfind
  | y :: rest, hfind, hpair => by
    rcases List.pairwise_cons.mp hpair with ⟨hy, hrest⟩
    by_cases hpy : isActiveFor u y = true
    · rw [List.find?_cons_of_pos _ hpy] at hfind
      have hy0 : y = c0 := by injection hfind
      have hys : y.cartId = c.cartId := by rw [hy0, hid]
      simp only [replaceCartById, if_pos hys]
      exact List.find?_cons_of_pos _ hc
    · rw [List.find?_cons_of_neg _ hpy] at hfind
      have hc0mem := List.mem_of_find?_eq_some hfind
      have hne : ¬ y.cartId = c.cartId := by
        rw [hid]; exact hy c0 hc0mem
      simp only [replaceCartById, if_neg hne]
      rw [List.find?_cons_of_neg _ hpy]
      exact find?_replaceCartById u c0 c hid hc rest hfind hrest

/-- The replaced document is present in the collection whenever some
document carries its id. -/
theorem mem_replaceCartById (c : Cart) :
    ∀ l : List Cart, (∃ x ∈ l, x.cartId = c.cartId) → c ∈ replaceCartById c l
  | [], h => by rcases h with ⟨x, hx, _⟩; cases hx
  | y :: rest, h => by
    by_cases hy : y.cartId = c.cartId
    · simp only [replaceCartById, if_pos hy]
      exact List.mem_cons_self c _
    · simp only [replaceCartById, if_neg hy]
      rcases h with ⟨x, hx, hxid⟩
      rcases List.mem_cons.mp hx with rfl | hx2
      · exact absurd hxid hy
      · exact List.mem_cons_of_mem y (mem_replaceCartById c rest ⟨x, hx2, hxid⟩)

theorem mem_of_mem_replaceCartById (c : Cart) :
    ∀ {l : List Cart} {y : Cart}, y ∈ replaceCartById c l → y ∈ l ∨ y = c
  | [], y, h => by cases h
  | x :: rest, y, h => by
    by_cases hx : x.cartId = c.cartId
    · simp only [replaceCartById, if_pos hx] at h
      rcases List.mem_cons.mp h with rfl | h2
      · right; rfl
      · left; exact List.mem_cons_of_mem x h2
    · simp only [replaceCartById, if_neg hx] at h
      rcases List.mem_cons.mp h with rfl | h2
      · left; exact List.mem_cons_self y rest
      · rcases mem_of_mem_replaceCartById c h2 with h3 | h3
        · left; exact List.mem_cons_of_mem x h3
        · right; exact h3

/-- Replacement by id leaves the id sequence of the collection intact. -/
theorem map_cartId_replaceCartById (c : Cart) :
    ∀ l : List Cart,
      (replaceCartById c l).map (fun x => x.cartId) = l.map (fun x => x.cartId)
  | [] => rfl
  | y :: rest => by
    by_cases hy : y.cartId = c.cartId
    · simp only [replaceCartById, if_pos hy, List.map_cons]
      rw [hy]
    · simp only [replaceCartById, if_neg hy, List.map_cons,
        map_cartId_replaceCartById c rest]

theorem WF_replaceCart {s : CartStore} {c : Cart} (hWF : s.WF)
    (hex : ∃ x ∈ s.carts, x.cartId = c.cartId) : (s.replaceCart c).WF := by
  obtain ⟨hpair, hlt⟩ := hWF
  constructor
  · have h1 : ((s.carts.map (fun x => x.cartId)).Pairwise (· ≠ ·)) :=
      List.pairwise_map.mpr hpair
    have h2 : (((replaceCartById c s.carts).map (fun x => x.cartId)).Pairwise (· ≠ ·)) := by
      rw [map_cartId_replaceCartById]; exact h1
    exact List.pairwise_map.mp h2
  · intro y hy
    rcases mem_of_mem_replaceCartById c hy with h | rfl
    · exact hlt y h
    · rcases hex with ⟨x, hx, hxid⟩
      calc y.cartId = x.cartId := hxid.symm
        _ < s.nextId := hlt x hx

theorem WF_insertCart {s : CartStore} (c : Cart) (hWF : s.WF) :
    ((s.insertCart c).2).WF := by
  obtain ⟨hpair, hlt⟩ := hWF
  constructor
  · refine List.pairwise_append.mpr ⟨hpair, List.pairwise_singleton _ _, ?_⟩
    intro a ha b hb
    have hb1 : b = { c with cartId := s.nextId } := List.mem_singleton.mp hb
    have : a.cartId < s.nextId := hlt a ha
    rw [hb1]
    show a.cartId ≠ s.nextId
    omega
  · intro y hy
    rcases List.mem_append.mp hy with h | h
    · have := hlt y h
      simp only [CartStore.insertCart]
      omega
    · have hy1 : y = { c with cartId := s.nextId } := List.mem_singleton.mp h
      rw [hy1]
      show s.nextId < ((s.insertCart c).2).nextId
      simp only [CartStore.insertCart]
      omega

theorem isLineFor_eq_true {pid : Nat} {i : CartItem} :
    isLineFor pid i = true ↔ i.productId = pid := by
  simp [isLineFor]

theorem findItem_append_of_none {l l2 : List CartItem} {pid : Nat}
    (h : findItem l pid = none) : findItem (l ++ l2) pid = findItem l2 pid := by
  unfold findItem at *
  exact find?_append_of_none h

theorem bumpFirstItem_append_of_none (pid : Nat) (q now : Int) :
    ∀ (l l2 : List CartItem), findItem l pid = none →
      bumpFirstItem pid q now (l ++ l2) = l ++ bumpFirstItem pid q now l2
  | [], l2, _ => rfl
  | i :: rest, l2, h => by
    have hni : ¬ isLineFor pid i = true := by
      intro hc
      rw [findItem, List.find?_cons_of_pos _ hc] at h
      cases h
    have hne : ¬ i.productId = pid := fun hc => hni (isLineFor_eq_true.mpr hc)
    rw [findItem, List.find?_cons_of_neg _ hni] at h
    simp only [List.cons_append, bumpFirstItem, if_neg hne, List.append_eq]
    rw [bumpFirstItem_append_of_none pid q now rest l2 h]

theorem findItem_bumpFirstItem (pid : Nat) (q now : Int) :
    ∀ (l : List CartItem) (it : CartItem), findItem l pid = some it →
      findItem (bumpFirstItem pid q now l) pid =
        some { it with quantity := it.quantity + q, addedAt := now }
  | [], it, h => by cases h
  | i :: rest, it, h => by
    by_cases hp : isLineFor pid i = true
    · rw [findItem, List.find?_cons_of_pos _ hp] at h
      have hit : i = it := by injection h
      have hne : i.productId = pid := isLineFor_eq_true.mp hp
      simp only [bumpFirstItem, if_pos hne]
      rw [findItem]
      refine List.find?_cons_of_pos _ ?_ |>.trans ?_
      · exact isLineFor_eq_true.mpr hne
      · rw [hit]
    · have hne : ¬ i.productId = pid := fun hc => hp (isLineFor_eq_true.mpr hc)
      rw [findItem, List.find?_cons_of_neg _ hp] at h
      simp only [bumpFirstItem, if_neg hne]
      rw [findItem, List.find?_cons_of_neg _ hp]
      exact findItem_bumpFirstItem pid q now rest it h

theorem findItem_setFirstItemQty (pid : Nat) (q now : Int) :
    ∀ (l : List CartItem) (it : CartItem), findItem l pid = some it →
      findItem (setFirstItemQty pid q now l) pid =
        some { it with quantity := q, addedAt := now }
  | [], it, h => by cases h
  | i :: rest, it, h => by
    by_cases hp : isLineFor pid i = true
    · rw [findItem, List.find?_cons_of_pos _ hp] at h
      have hit : i = it := by injection h
      have hne : i.productId = pid := isLineFor_eq_true.mp hp
      simp only [setFirstItemQty, if_pos hne]
      rw [findItem]
      refine List.find?_cons_of_pos _ ?_ |>.trans ?_
      · exact isLineFor_eq_true.mpr hne
      · rw [hit]
    · have hne : ¬ i.productId = pid := fun hc => hp (isLineFor_eq_true.mpr hc)
      rw [findItem, List.find?_cons_of_neg _ hp] at h
      simp only [setFirstItemQty, if_neg hne]
      rw [findItem, List.find?_cons_of_neg _ hp]
      exact findItem_setFirstItemQty pid q now rest it h

theorem length_removeFirstItem (pid : Nat) :
    ∀ (l : List CartItem) (it : CartItem), findItem l pid = some it →
      (removeFirstItem pid l).length + 1 = l.length
  | [], it, h => by cases h
  | i :: rest, it, h => by
    by_cases hp : isLineFor pid i = true
    · have hne : i.productId = pid := isLineFor_eq_true.mp hp
      simp only [removeFirstItem, if_pos hne, List.length_cons]
    · have hne : ¬ i.productId = pid := fun hc => hp (isLineFor_eq_true.mpr hc)
      rw [findItem, List.find?_cons_of_neg _ hp] at h
      simp only [removeFirstItem, if_neg hne, List.length_cons]
      rw [← length_removeFirstItem pid rest it h]

theorem filter_ne_bumpFirstItem (pid : Nat) (q now : Int) :
    ∀ l : List CartItem,
      (bumpFirstItem pid q now l).filter (fun i => !(isLineFor pid i)) =
        l.filter (fun i => !(isLineFor pid i))
  | [] => rfl
  | i :: rest => by
    by_cases hne : i.productId = pid
    · have hp : isLineFor pid i = true := isLineFor_eq_true.mpr hne
      have hp2 : isLineFor pid { i with quantity := i.quantity + q, addedAt := now } = true :=
        isLineFor_eq_true.mpr hne
      simp only [bumpFirstItem, if_pos hne, List.filter_cons, hp, hp2]
      simp
    · have hp : ¬ isLineFor pid i = true := fun hc => hne (isLineFor_eq_true.mp hc)
      simp only [bumpFirstItem, if_neg hne, List.filter_cons]
      rw [filter_ne_bumpFirstItem pid q now rest]

theorem isActiveFor_iff {u : Nat} {c : Cart} :
    isActiveFor u c = true ↔ c.userId = u ∧ c.status = "active" := by
  simp [isActiveFor]

theorem addItemToCart_ok_shape {product : Product} {pid : Nat} {q now : Int}
    {cart0 cart1 : Cart} (h : addItemToCart product pid q now cart0 = .ok cart1) :
    cart1.cartId = cart0.cartId ∧ cart1.userId = cart0.userId ∧
      cart1.status = cart0.status ∧
      cart1.totalAmount = computeTotalAmount cart1.items ∧
      cart1.totalItems = computeTotalItems cart1.items := by
  unfold addItemToCart at h
  split at h
  · split at h
    · cases h
    · injection h with h1
      subst h1
      exact ⟨rfl, rfl, rfl, rfl, rfl⟩
  · injection h with h1
    subst h1
    exact ⟨rfl, rfl, rfl, rfl, rfl⟩

theorem addItem_ok_inv {cat : List Product} {s : CartStore} {u pid : Nat}
    {q now : Int} {c : Cart} {s1 : CartStore}
    (h : addItem cat s u pid q now = .ok (c, s1)) :
    0 < q ∧ ∃ product, findProduct cat pid = some product ∧
      ¬ product.stock < q ∧
      ((∃ cart0, findActiveCart s u = some cart0 ∧
          addItemToCart product pid q now cart0 = .ok c ∧
          s1 = s.replaceCart c) ∨
       (findActiveCart s u = none ∧
        ∃ cart1, addItemToCart product pid q now (freshCart u now) = .ok cart1 ∧
          c = (s.insertCart cart1).1 ∧ s1 = (s.insertCart cart1).2)) := by
  unfold addItem at h
  split at h
  · cases h
  · rename_i hq0
    split at h
    · cases h
    · rename_i hqle
      split at h
      · cases h
      · rename_i product hprod
        split at h
        · cases h
        · rename_i hstock
          refine ⟨by omega, product, hprod, hstock, ?_⟩
          split at h
          · rename_i cart0 hfind
            split at h
            · cases h
            · rename_i cart1 hadd
              injection h with h2
              cases h2
              exact Or.inl ⟨cart0, hfind, hadd, rfl⟩
          · rename_i hnone
            split at h
            · cases h
            · rename_i cart1 hadd
              injection h with h2
              refine Or.inr ⟨hnone, cart1, hadd, ?_, ?_⟩
              · rw [h2]
              · rw [h2]

theorem addItem_ok_state {cat : List Product} {s : CartStore} {u pid : Nat}
    {q now : Int} {c : Cart} {s1 : CartStore}
    (hWF : s.WF) (h : addItem cat s u pid q now = .ok (c, s1)) :
    findActiveCart s1 u = some c ∧ s1.WF := by
  obtain ⟨hq, product, hprod, hstock, hcase⟩ := addItem_ok_inv h
  rcases hcase with ⟨cart0, hfind, hadd, rfl⟩ | ⟨hnone, cart1, hadd, rfl, rfl⟩
  · obtain ⟨hid, huser, hstatus, _, _⟩ := addItemToCart_ok_shape hadd
    have hact0 : isActiveFor u cart0 = true := List.find?_some hfind
    obtain ⟨hu0, hs0⟩ := isActiveFor_iff.mp hact0
    have hact : isActiveFor u c = true :=
      isActiveFor_iff.mpr ⟨by rw [huser, hu0], by rw [hstatus, hs0]⟩
    constructor
    · exact find?_replaceCartById u cart0 c hid hact s.carts hfind hWF.1
    · exact WF_replaceCart hWF ⟨cart0, List.mem_of_find?_eq_some hfind, hid.symm⟩
  · obtain ⟨hid, huser, hstatus, _, _⟩ := addItemToCart_ok_shape hadd
    have hu1 : cart1.userId = u := by rw [huser]; rfl
    have hs1 : cart1.status = "active" := by rw [hstatus]; rfl
    constructor
    · show ((s.insertCart cart1).2).carts.find? (isActiveFor u) = some (s.insertCart cart1).1
      rw [show ((s.insertCart cart1).2).carts =
            s.carts ++ [{ cart1 with cartId := s.nextId }] from rfl]
      rw [find?_append_of_none hnone]
      have hact : isActiveFor u { cart1 with cartId := s.nextId } = true :=
        isActiveFor_iff.mpr ⟨hu1, hs1⟩
      rw [List.find?_cons_of_pos _ hact]
      rfl
    · exact WF_insertCart cart1 hWF

theorem updateItem_ok_shape {cat : List Product} {s : CartStore} {u pid : Nat}
    {q now : Int} {c : Cart} {s1 : CartStore}
    (h : updateItem cat s u pid q now = .ok (c, s1)) :
    ∃ cart, findActiveCart s u = some cart ∧ c.cartId = cart.cartId ∧
      c.userId = cart.userId ∧ c.status = cart.status ∧
      c.totalAmount = computeTotalAmount c.items ∧
      c.totalItems = computeTotalItems c.items ∧
      s1 = s.replaceCart c := by
  unfold updateItem at h
  split at h
  · cases h
  · split at h
    · cases h
    · rename_i cart hfind
      split at h
      · cases h
      · split at h
        · cases h
        · injection h with h2
          cases h2
          exact ⟨cart, hfind, rfl, rfl, rfl, rfl, rfl, rfl⟩

theorem removeItem_ok_shape {s : CartStore} {u pid : Nat} {now : Int}
    {c : Cart} {s1 : CartStore} (h : removeItem s u pid now = .ok (c, s1)) :
    ∃ cart, findActiveCart s u = some cart ∧ c.cartId = cart.cartId ∧
      c.totalAmount = computeTotalAmount c.items ∧
      c.totalItems = computeTotalItems c.items ∧
      s1 = s.replaceCart c := by
  unfold removeItem at h
  split at h
  · cases h
  · rename_i cart hfind
    split at h
    · cases h
    · injection h with h2
      cases h2
      exact ⟨cart, hfind, rfl, rfl, rfl, rfl⟩

theorem clearCart_ok_shape {s : CartStore} {u : Nat} {now : Int}
    {c : Cart} {s1 : CartStore} (h : clearCart s u now = .ok (c, s1)) :
    ∃ cart, findActiveCart s u = some cart ∧ c.cartId = cart.cartId ∧
      c.items = [] ∧ c.totalAmount = 0 ∧ c.totalItems = 0 ∧
      s1 = s.replaceCart c := by
  unfold clearCart at h
  split at h
  · cases h
  · rename_i cart hfind
    injection h with h2
    cases h2
    exact ⟨cart, hfind, rfl, rfl, rfl, rfl, rfl⟩

/-! ## OTP lemmas -/

theorem filter_eq_nil_of_length_le {α : Type} {p : α → Bool} {x : α}
    {l : List α} (hpx : p x = true)
    (hlen : ((x :: l).filter p).length ≤ 1) : l.filter p = [] := by
  rw [List.filter_cons_of_pos hpx, List.length_cons] at hlen
  have : (l.filter p).length = 0 := by omega
  exact List.length_eq_zero.mp this

theorem find?_eq_none_of_filter_nil {α : Type} {p : α → Bool} {l : List α}
    (h : l.filter p = []) : l.find? p = none := by
  rw [List.find?_eq_none]
  intro x hx hpx
  have : x ∈ l.filter p := List.mem_filter.mpr ⟨hx, hpx⟩
  rw [h] at this
  cases this

/-- After marking the first unverified match verified, no unverified
match remains (given unique ids and at most one stored match). -/
theorem find?_updateFirstById_none (p : OtpRecord → Bool)
    (f : OtpRecord → OtpRecord) (hf : ∀ x, p (f x) = false) :
    ∀ (l : List OtpRecord) (r : OtpRecord), l.find? p = some r →
      l.Pairwise (fun a b => a.rid ≠ b.rid) →
      (l.filter p).length ≤ 1 →
      (updateFirstById r.rid f l).find? p = none
  | [], r, hfind, _, _ => by cases hfind
  | x :: rest, r, hfind, hpair, hcount => by
    rcases List.pairwise_cons.mp hpair with ⟨hx, hrest⟩
    by_cases hpx : p x = true
    · rw [List.find?_cons_of_pos _ hpx] at hfind
      have hxr : x = r := by injection hfind
      subst hxr
      simp only [updateFirstById]
      simp only [if_true]
      rw [List.find?_cons_of_neg _ (by rw [hf x]; exact Bool.false_ne_true)]
      exact find?_eq_none_of_filter_nil (filter_eq_nil_of_length_le hpx hcount)
    · rw [List.find?_cons_of_neg _ hpx] at hfind
      have hmem := List.mem_of_find?_eq_some hfind
      have hne : ¬ x.rid = r.rid := hx r hmem
      simp only [updateFirstById, if_neg hne]
      rw [List.find?_cons_of_neg _ hpx]
      refine find?_updateFirstById_none p f hf rest r hfind hrest ?_
      rwa [List.filter_cons_of_neg hpx] at hcount

/-- The rewritten record is stored after `updateOne` (unique ids). -/
theorem mem_updateFirstById (f : OtpRecord → OtpRecord) (p : OtpRecord → Bool) :
    ∀ (l : List OtpRecord) (r : OtpRecord), l.find? p = some r →
      l.Pairwise (fun a b => a.rid ≠ b.rid) →
      f r ∈ updateFirstById r.rid f l
  | [], r, hfind, _ => by cases hfind
  | x :: rest, r, hfind, hpair => by
    rcases List.pairwise_cons.mp hpair with ⟨hx, hrest⟩
    by_cases hpx : p x = true
    · rw [List.find?_cons_of_pos _ hpx] at hfind
      have hxr : x = r := by injection hfind
      subst hxr
      simp only [updateFirstById]
      simp only [if_true]
      exact List.mem_cons_self _ _
    · rw [List.find?_cons_of_neg _ hpx] at hfind
      have hmem := List.mem_of_find?_eq_some hfind
      have hne : ¬ x.rid = r.rid := hx r hmem
      simp only [updateFirstById, if_neg hne]
      exact List.mem_cons_of_mem x (mem_updateFirstById f p rest r hfind hrest)

/-- After `deleteOne` on the first match, no match remains (given unique
ids and at most one stored match). -/
theorem find?_deleteFirstById_none (p : OtpRecord → Bool) :
    ∀ (l : List OtpRecord) (r : OtpRecord), l.find? p = some r →
      l.Pairwise (fun a b => a.rid ≠ b.rid) →
      (l.filter p).length ≤ 1 →
      (deleteFirstById r.rid l).find? p = none
  | [], r, hfind, _, _ => by cases hfind
  | x :: rest, r, hfind, hpair, hcount => by
    rcases List.pairwise_cons.mp hpair with ⟨hx, hrest⟩
    by_cases hpx : p x = true
    · rw [List.find?_cons_of_pos _ hpx] at hfind
      have hxr : x = r := by injection hfind
      subst hxr
      simp only [deleteFirstById]
      simp only [if_true]
      exact find?_eq_none_of_filter_nil (filter_eq_nil_of_length_le hpx hcount)
    · rw [List.find?_cons_of_neg _ hpx] at hfind
      have hmem := List.mem_of_find?_eq_some hfind
      have hne : ¬ x.rid = r.rid := hx r hmem
      simp only [deleteFirstById, if_neg hne]
      rw [List.find?_cons_of_neg _ hpx]
      refine find?_deleteFirstById_none p rest r hfind hrest ?_
      rwa [List.filter_cons_of_neg hpx] at hcount

/-- Lemma: `deleteOne({_id})` removes the record outright (unique ids). -/
theorem not_mem_deleteFirstById :
    ∀ (l : List OtpRecord) (r : OtpRecord),
      l.Pairwise (fun a b => a.rid ≠ b.rid) →
      r ∉ deleteFirstById r.rid l
  | [], r, _ => by intro h; cases h
  | x :: rest, r, hpair => by
    rcases List.pairwise_cons.mp hpair with ⟨hx, hrest⟩
    by_cases hxe : x.rid = r.rid
    · simp only [deleteFirstById, if_pos hxe]
      intro hmem
      exact hx r hmem hxe
    · simp only [deleteFirstById, if_neg hxe]
      intro hmem
      rcases List.mem_cons.mp hmem with rfl | hmem2
      · exact hxe rfl
      · exact not_mem_deleteFirstById rest r hrest hmem2

/-! ## Result-cart abbreviations (the documents the handlers write) -/

/-- The cart written by POST /api/cart/add when the line is new. -/
def appendLineCart (cart0 : Cart) (pid : Nat) (product : Product)
    (q now : Int) : Cart :=
  { cart0 with
      items := cart0.items ++ [newLine pid product q now]
      totalAmount := computeTotalAmount (cart0.items ++ [newLine pid product q now])
      totalItems := computeTotalItems (cart0.items ++ [newLine pid product q now])
      updatedAt := now }

/-- The cart written by POST /api/cart/add when the line already exists. -/
def bumpLineCart (cart0 : Cart) (pid : Nat) (q now : Int) : Cart :=
  { cart0 with
      items := bumpFirstItem pid q now cart0.items
      totalAmount := computeTotalAmount (bumpFirstItem pid q now cart0.items)
      totalItems := computeTotalItems (bumpFirstItem pid q now cart0.items)
      updatedAt := now }

/-- The cart written by PUT /api/cart/update with quantity 0. -/
def updateRemovalCart (cart : Cart) (pid : Nat) (now : Int) : Cart :=
  { cart with
      items := removeFirstItem pid cart.items
      totalAmount := computeTotalAmount (removeFirstItem pid cart.items)
      totalItems := computeTotalItems (removeFirstItem pid cart.items)
      updatedAt := now }

/-- The cart written by PUT /api/cart/update with positive quantity. -/
def updateSetCart (cart : Cart) (pid : Nat) (q now : Int) : Cart :=
  { cart with
      items := setFirstItemQty pid q now cart.items
      totalAmount := computeTotalAmount (setFirstItemQty pid q now cart.items)
      totalItems := computeTotalItems (setFirstItemQty pid q now cart.items)
      updatedAt := now }

/-! ## Forward-computation lemmas for the handlers -/

theorem addItemToCart_none {product : Product} {pid : Nat} {q now : Int}
    {cart0 : Cart} (h : findItem cart0.items pid = none) :
    addItemToCart product pid q now cart0 =
      .ok (appendLineCart cart0 pid product q now) := by
  unfold addItemToCart appendLineCart
  rw [h]

theorem addItemToCart_some_ok {product : Product} {pid : Nat} {q now : Int}
    {cart0 : Cart} {it : CartItem} (h : findItem cart0.items pid = some it)
    (hst : ¬ product.stock < it.quantity + q) :
    addItemToCart product pid q now cart0 = .ok (bumpLineCart cart0 pid q now) := by
  unfold addItemToCart bumpLineCart
  rw [h]
  simp only [if_neg hst]

theorem addItemToCart_some_insufficient {product : Product} {pid : Nat}
    {q now : Int} {cart0 : Cart} {it : CartItem}
    (h : findItem cart0.items pid = some it)
    (hst : product.stock < it.quantity + q) :
    addItemToCart product pid q now cart0 =
      .error (.insufficientStockTotal q (product.stock - it.quantity)) := by
  unfold addItemToCart
  rw [h]
  simp only [if_pos hst]

theorem addItem_insufficient_raw {cat : List Product} {s : CartStore}
    {u pid : Nat} {q now : Int} {P : Product} (hq : 0 < q)
    (hprod : findProduct cat pid = some P) (hstock : P.stock < q) :
    addItem cat s u pid q now = .error (.insufficientStock P.stock) := by
  unfold addItem
  rw [if_neg (by omega : ¬ q = 0), if_neg (by omega : ¬ q ≤ 0), hprod]
  simp only [if_pos hstock]

theorem addItem_existing_cart {cat : List Product} {s : CartStore}
    {u pid : Nat} {q now : Int} {P : Product} {cart0 : Cart} (hq : 0 < q)
    (hprod : findProduct cat pid = some P) (hstock : ¬ P.stock < q)
    (hfind : findActiveCart s u = some cart0) :
    addItem cat s u pid q now =
      match addItemToCart P pid q now cart0 with
      | .error e => .error e
      | .ok cart1 => .ok (cart1, s.replaceCart cart1) := by
  unfold addItem
  rw [if_neg (by omega : ¬ q = 0), if_neg (by omega : ¬ q ≤ 0), hprod]
  simp only [if_neg hstock]
  rw [hfind]

theorem addItem_fresh_cart {cat : List Product} {s : CartStore}
    {u pid : Nat} {q now : Int} {P : Product} (hq : 0 < q)
    (hprod : findProduct cat pid = some P) (hstock : ¬ P.stock < q)
    (hfind : findActiveCart s u = none) :
    addItem cat s u pid q now =
      .ok (s.insertCart (appendLineCart (freshCart u now) pid P q now)) := by
  unfold addItem
  rw [if_neg (by omega : ¬ q = 0), if_neg (by omega : ¬ q ≤ 0), hprod]
  simp only [if_neg hstock]
  rw [hfind, addItemToCart_none (by rfl)]

theorem updateItem_neg {cat : List Product} {s : CartStore} {u pid : Nat}
    {q now : Int} (hq : q < 0) :
    updateItem cat s u pid q now = .error .invalidQuantity := by
  unfold updateItem
  rw [if_pos hq]

theorem updateItem_nocart {cat : List Product} {s : CartStore} {u pid : Nat}
    {q now : Int} (hq : ¬ q < 0) (hfind : findActiveCart s u = none) :
    updateItem cat s u pid q now = .error .cartNotFound := by
  unfold updateItem
  rw [if_neg hq, hfind]

theorem updateItem_noitem {cat : List Product} {s : CartStore} {u pid : Nat}
    {q now : Int} {cart : Cart} (hq : ¬ q < 0)
    (hfind : findActiveCart s u = some cart)
    (hit : findItem cart.items pid = none) :
    updateItem cat s u pid q now = .error .itemNotFound := by
  simp only [updateItem, hfind, hit]
  rw [if_neg hq]

theorem updateItem_zero {cat : List Product} {s : CartStore} {u pid : Nat}
    {now : Int} {cart : Cart} {it : CartItem}
    (hfind : findActiveCart s u = some cart)
    (hit : findItem cart.items pid = some it) :
    updateItem cat s u pid 0 now =
      .ok (updateRemovalCart cart pid now,
           s.replaceCart (updateRemovalCart cart pid now)) := by
  simp only [updateItem, updateRemovalCart, updateStockCheck, hfind, hit]
  norm_num

theorem updateItem_pos_prod_missing {cat : List Product} {s : CartStore}
    {u pid : Nat} {q now : Int} {cart : Cart} {it : CartItem} (hq : 0 < q)
    (hfind : findActiveCart s u = some cart)
    (hit : findItem cart.items pid = some it)
    (hprod : findProduct cat pid = none) :
    updateItem cat s u pid q now = .error .productNotFound := by
  simp only [updateItem, updateStockCheck, hfind, hit, hprod, if_pos hq]
  rw [if_neg (by omega : ¬ q < 0)]

theorem updateItem_pos_insufficient {cat : List Product} {s : CartStore}
    {u pid : Nat} {q now : Int} {cart : Cart} {it : CartItem} {P : Product}
    (hq : 0 < q) (hfind : findActiveCart s u = some cart)
    (hit : findItem cart.items pid = some it)
    (hprod : findProduct cat pid = some P) (hstock : P.stock < q) :
    updateItem cat s u pid q now = .error (.insufficientStock P.stock) := by
  simp only [updateItem, updateStockCheck, hfind, hit, hprod, if_pos hq,
    if_pos hstock]
  rw [if_neg (by omega : ¬ q < 0)]

theorem updateItem_pos_ok {cat : List Product} {s : CartStore}
    {u pid : Nat} {q now : Int} {cart : Cart} {it : CartItem} {P : Product}
    (hq : 0 < q) (hfind : findActiveCart s u = some cart)
    (hit : findItem cart.items pid = some it)
    (hprod : findProduct cat pid = some P) (hstock : ¬ P.stock < q) :
    updateItem cat s u pid q now =
      .ok (updateSetCart cart pid q now,
           s.replaceCart (updateSetCart cart pid q now)) := by
  simp only [updateItem, updateSetCart, updateStockCheck, hfind, hit, hprod,
    if_pos hq, if_neg hstock]
  rw [if_neg (by omega : ¬ q < 0), if_neg (by omega : ¬ q = 0)]

/-- Verify with no matching unverified record: Invalid, store untouched. -/
theorem verifyOtp_invalid {s0 : OtpStore} {e c : String} (t : Int)
    (h : findOtp s0 e c = none) : verifyOtp s0 e c t = (.invalid, s0) := by
  unfold verifyOtp
  rw [h]

/-! ## Issue-path structure lemmas -/

/-- The record stored by POST /api/send-otp. -/
def issuedRecord (s : OtpStore) (e code : String) (t : Int) : OtpRecord :=
  { rid := s.nextId, email := jsToLower e, otp := code, createdAt := t,
    verified := false, verifiedAt := none }

theorem issueOtp_records (s : OtpStore) (e code : String) (t : Int) (ok : Bool) :
    (issueOtp s e code t ok).2.records =
      s.records.filter (fun r => !(r.email == jsToLower e)) ++
        [issuedRecord s e code t] := by
  cases ok <;> rfl

theorem issueOtp_one_record (s : OtpStore) (e code : String) (t : Int)
    (ok : Bool) :
    ((issueOtp s e code t ok).2.records.filter
      (fun r => r.email == jsToLower e)).length = 1 := by
  rw [issueOtp_records, List.filter_append, List.filter_filter]
  have h1 : (s.records.filter
      (fun a => (a.email == jsToLower e) && !(a.email == jsToLower e))) = [] := by
    apply List.filter_eq_nil_iff.mpr
    intro a _
    simp
  rw [h1]
  simp [issuedRecord]

theorem verify_other_code_after_issue (s : OtpStore) (e c1 c2 : String)
    (t t3 : Int) (ok : Bool) (hne : c1 ≠ c2) :
    (verifyOtp (issueOtp s e c2 t ok).2 e c1 t3).1 = .invalid := by
  have hnone : findOtp (issueOtp s e c2 t ok).2 e c1 = none := by
    unfold findOtp
    rw [issueOtp_records, List.find?_append]
    have hleft : (s.records.filter (fun r => !(r.email == jsToLower e))).find?
        (otpMatches e c1) = none := by
      rw [List.find?_eq_none]
      intro x hx hmatch
      have hx2 := (List.mem_filter.mp hx).2
      simp only [otpMatches, Bool.and_eq_true, beq_iff_eq] at hmatch
      rw [hmatch.1.1] at hx2
      simp at hx2
    have hright : ([issuedRecord s e c2 t] : List OtpRecord).find?
        (otpMatches e c1) = none := by
      rw [List.find?_eq_none]
      intro x hx hmatch
      have hx1 : x = issuedRecord s e c2 t := List.mem_singleton.mp hx
      subst hx1
      simp only [otpMatches, issuedRecord, Bool.and_eq_true, beq_iff_eq] at hmatch
      exact hne (hmatch.1.2.symm)
    rw [hleft, hright]
    rfl
  unfold verifyOtp
  rw [hnone]

/-! ## Fixtures for witnesses and counterexamples -/

def sampleCatalog : List Product :=
  [{ pid := 1, name := "p1", imageUrl := "img", price := 100, stock := 5 }]

def emptyCarts : CartStore := { carts := [], nextId := 10 }

def lineCatalog : List Product :=
  [{ pid := 1, name := "p", imageUrl := "", price := 10, stock := 3 }]

def lineItem : CartItem :=
  { productId := 1, productName := "p", productImage := "",
    quantity := 2, priceAtTime := 10, addedAt := 0 }

def lineCart : Cart :=
  { cartId := 10, userId := 7, items := [lineItem], totalAmount := 20,
    totalItems := 2, status := "active", createdAt := 0, updatedAt := 0 }

def lineStore : CartStore := { carts := [lineCart], nextId := 11 }

def emptyOtp : OtpStore := { records := [], nextId := 0 }

def otp1 : OtpRecord :=
  { rid := 0, email := "a@b.com", otp := "123456", createdAt := 0,
    verified := false, verifiedAt := none }

def otpStore1 : OtpStore := { records := [otp1], nextId := 1 }

/-! ## Claim theorems -/

/-- C5: after `issue(email)` exactly one OTP record for that email is
stored (the deleteMany-then-insertOne of POST /api/send-otp guarantees
this for any prior store state, hence after any number of successive
issues); a second issue supersedes the first: the first record is no
longer stored and verifying its (distinct) code fails as Invalid. -/
theorem C5_issue_exactly_one (s : OtpStore) (e c1 c2 : String)
    (t1 t2 t3 : Int) (ok1 ok2 : Bool) (hne : c1 ≠ c2) :
    ((issueOtp s e c1 t1 ok1).2.records.filter
        (fun r => r.email == jsToLower e)).length = 1 ∧
    (((issueOtp (issueOtp s e c1 t1 ok1).2 e c2 t2 ok2).2.records.filter
        (fun r => r.email == jsToLower e)).length = 1) ∧
    issuedRecord s e c1 t1 ∉
      (issueOtp (issueOtp s e c1 t1 ok1).2 e c2 t2 ok2).2.records ∧
    (verifyOtp (issueOtp (issueOtp s e c1 t1 ok1).2 e c2 t2 ok2).2 e c1 t3).1
      = .invalid := by
  refine ⟨issueOtp_one_record s e c1 t1 ok1,
    issueOtp_one_record _ e c2 t2 ok2, ?_,
    verify_other_code_after_issue _ e c1 c2 t2 t3 ok2 hne⟩
  intro hmem
  rw [issueOtp_records] at hmem
  rcases List.mem_append.mp hmem with h | h
  · have h2 := (List.mem_filter.mp h).2
    simp [issuedRecord] at h2
  · have h2 : issuedRecord s e c1 t1 =
        issuedRecord (issueOtp s e c1 t1 ok1).2 e c2 t2 :=
      List.mem_singleton.mp h
    have h3 : c1 = c2 := congrArg OtpRecord.otp h2
    exact hne h3

theorem C5_witness :
    (verifyOtp (issueOtp (issueOtp emptyOtp "a@b.com" "111111" 0 true).2
        "a@b.com" "222222" 5 true).2 "a@b.com" "111111" 6).1 = .invalid :=
  (C5_issue_exactly_one emptyOtp "a@b.com" "111111" "222222" 0 5 6 true true
    (by decide)).2.2.2

/-- C8: POST /api/send-otp persists the OTP record before attempting the
email dispatch: when the dispatch fails the caller gets an error response
but the store is exactly what a successful dispatch would have left, with
the fresh unverified record present (no rollback). -/
theorem C8_persist_before_dispatch (s : OtpStore) (e code : String)
    (now : Int) :
    (issueOtp s e code now false).1 = .sendFailed ∧
    (issueOtp s e code now true).1 = .sent ∧
    (issueOtp s e code now false).2 = (issueOtp s e code now true).2 ∧
    issuedRecord s e code now ∈ (issueOtp s e code now false).2.records ∧
    (issuedRecord s e code now).verified = false := by
  refine ⟨rfl, rfl, rfl, ?_, rfl⟩
  rw [issueOtp_records]
  exact List.mem_append_right _ (List.mem_singleton_self _)

/-- C9: GET /api/cart returns the existing active cart with no write;
otherwise it builds the empty active cart, persists it (appending exactly
one document) and returns it, and that document is the user's active
cart afterwards. -/
theorem C9_get_or_create (s : CartStore) (u : Nat) (now : Int) :
    (∀ c, findActiveCart s u = some c → getOrCreateCart s u now = (c, s)) ∧
    (findActiveCart s u = none →
      ∃ c, getOrCreateCart s u now =
          (c, { carts := s.carts ++ [c], nextId := s.nextId + 1 }) ∧
        c.items = [] ∧ c.totalAmount = 0 ∧ c.totalItems = 0 ∧
        c.status = "active" ∧ c.userId = u ∧
        findActiveCart { carts := s.carts ++ [c], nextId := s.nextId + 1 } u
          = some c) := by
  constructor
  · intro c hc
    unfold getOrCreateCart
    rw [hc]
  · intro hnone
    refine ⟨{ freshCart u now with cartId := s.nextId },
      ?_, rfl, rfl, rfl, rfl, rfl, ?_⟩
    · unfold getOrCreateCart
      rw [hnone]
      rfl
    · have hact : isActiveFor u { freshCart u now with cartId := s.nextId }
          = true := by
        simp [isActiveFor, freshCart]
      show (s.carts ++ [{ freshCart u now with cartId := s.nextId }]).find?
        (isActiveFor u) = _
      rw [find?_append_of_none hnone, List.find?_cons_of_pos _ hact]

theorem C9_witness :
    ∃ c, getOrCreateCart emptyCarts 7 99 =
        (c, { carts := emptyCarts.carts ++ [c], nextId := emptyCarts.nextId + 1 }) ∧
      c.items = [] ∧ c.totalAmount = 0 ∧ c.totalItems = 0 ∧
      c.status = "active" ∧ c.userId = 7 ∧
      findActiveCart { carts := emptyCarts.carts ++ [c], nextId := emptyCarts.nextId + 1 } 7
        = some c :=
  (C9_get_or_create emptyCarts 7 99).2 rfl

/-- C1: after every successful cart mutation (add, update, remove,
clear) the returned and persisted cart satisfies
`totalAmount = Σ priceAtTime * quantity` and `totalItems = Σ quantity`
over its item list. The statement quantifies over arbitrary input
stores — including stores whose persisted totals are wrong — so the
totals are established by full recomputation from the item list on each
mutation, never by incremental adjustment of prior totals. -/
theorem C1_totals_recomputed (cat : List Product) (s : CartStore)
    (u pid : Nat) (q now : Int) :
    (∀ c s1, addItem cat s u pid q now = .ok (c, s1) →
        c.totalAmount = specTotalAmount c.items ∧
        c.totalItems = specTotalItems c.items ∧ c ∈ s1.carts) ∧
    (∀ c s1, updateItem cat s u pid q now = .ok (c, s1) →
        c.totalAmount = specTotalAmount c.items ∧
        c.totalItems = specTotalItems c.items ∧ c ∈ s1.carts) ∧
    (∀ c s1, removeItem s u pid now = .ok (c, s1) →
        c.totalAmount = specTotalAmount c.items ∧
        c.totalItems = specTotalItems c.items ∧ c ∈ s1.carts) ∧
    (∀ c s1, clearCart s u now = .ok (c, s1) →
        c.totalAmount = specTotalAmount c.items ∧
        c.totalItems = specTotalItems c.items ∧ c ∈ s1.carts) := by
  refine ⟨?_, ?_, ?_, ?_⟩
  · intro c s1 h
    obtain ⟨hq, P, hprod, hstock, hcase⟩ := addItem_ok_inv h
    rcases hcase with ⟨cart0, hfind, hadd, rfl⟩ | ⟨hnone, cart1, hadd, rfl, rfl⟩
    · obtain ⟨hid, _, _, hta, hti⟩ := addItemToCart_ok_shape hadd
      refine ⟨by rw [hta, computeTotalAmount_eq],
        by rw [hti, computeTotalItems_eq], ?_⟩
      exact mem_replaceCartById c s.carts
        ⟨cart0, List.mem_of_find?_eq_some hfind, hid.symm⟩
    · obtain ⟨_, _, _, hta, hti⟩ := addItemToCart_ok_shape hadd
      have hta2 : (s.insertCart cart1).1.totalAmount
          = computeTotalAmount ((s.insertCart cart1).1).items := hta
      have hti2 : (s.insertCart cart1).1.totalItems
          = computeTotalItems ((s.insertCart cart1).1).items := hti
      refine ⟨by rw [hta2, computeTotalAmount_eq],
        by rw [hti2, computeTotalItems_eq], ?_⟩
      show _ ∈ s.carts ++ [(s.insertCart cart1).1]
      exact List.mem_append_right _ (List.mem_singleton_self _)
  · intro c s1 h
    obtain ⟨cart, hfind, hid, _, _, hta, hti, rfl⟩ := updateItem_ok_shape h
    refine ⟨by rw [hta, computeTotalAmount_eq],
      by rw [hti, computeTotalItems_eq], ?_⟩
    exact mem_replaceCartById c s.carts
      ⟨cart, List.mem_of_find?_eq_some hfind, hid.symm⟩
  · intro c s1 h
    obtain ⟨cart, hfind, hid, hta, hti, rfl⟩ := removeItem_ok_shape h
    refine ⟨by rw [hta, computeTotalAmount_eq],
      by rw [hti, computeTotalItems_eq], ?_⟩
    exact mem_replaceCartById c s.carts
      ⟨cart, List.mem_of_find?_eq_some hfind, hid.symm⟩
  · intro c s1 h
    obtain ⟨cart, hfind, hid, hitems, hta, hti, rfl⟩ := clearCart_ok_shape h
    refine ⟨by rw [hta, hitems]; rfl, by rw [hti, hitems]; rfl, ?_⟩
    exact mem_replaceCartById c s.carts
      ⟨cart, List.mem_of_find?_eq_some hfind, hid.symm⟩

def witAddCart : Cart :=
  { cartId := 10, userId := 7,
    items := [{ productId := 1, productName := "p1", productImage := "img",
                quantity := 2, priceAtTime := 100, addedAt := 1000 }],
    totalAmount := 200, totalItems := 2, status := "active",
    createdAt := 1000, updatedAt := 1000 }

def witAddStore : CartStore := { carts := [witAddCart], nextId := 11 }

theorem C1_witness :
    witAddCart.totalAmount = specTotalAmount witAddCart.items ∧
    witAddCart.totalItems = specTotalItems witAddCart.items ∧
    witAddCart ∈ witAddStore.carts :=
  (C1_totals_recomputed sampleCatalog emptyCarts 7 1 2 1000).1
    witAddCart witAddStore rfl

/-- C6: verification is single-use. A successful verify marks the found
record `verified = true` with `verifiedAt` stamped and persists it; any
subsequent verify with the same email and code finds no unverified
record (the lookup filters on `verified: false`) and returns the same
Invalid outcome; and any store state with no matching unverified record
— wrong code, already verified, or never issued — yields that identical
Invalid outcome with the store untouched. Unique record ids and at most
one stored match (the invariant POST /api/send-otp maintains) are
assumed. -/
theorem C6_verify_single_use (s : OtpStore) (e code : String) (now : Int)
    (r : OtpRecord)
    (hdist : s.records.Pairwise (fun a b => a.rid ≠ b.rid))
    (hcount : (s.records.filter (otpMatches e code)).length ≤ 1)
    (hfind : findOtp s e code = some r)
    (hfresh : otpIsExpired now r.createdAt = false) :
    (verifyOtp s e code now).1 = .verifiedOk now ∧
    markVerified now r ∈ (verifyOtp s e code now).2.records ∧
    (∀ t2, (verifyOtp (verifyOtp s e code now).2 e code t2).1 = .invalid) ∧
    (∀ s0 : OtpStore, findOtp s0 e code = none →
      verifyOtp s0 e code now = (.invalid, s0)) := by
  have hv : verifyOtp s e code now =
      (.verifiedOk now,
        { s with records := updateFirstById r.rid (markVerified now) s.records }) := by
    simp only [verifyOtp, hfind, hfresh, Bool.false_eq_true, if_false]
  have hf : ∀ x, otpMatches e code (markVerified now x) = false := by
    intro x
    simp [otpMatches, markVerified]
  refine ⟨by rw [hv], ?_, ?_, ?_⟩
  · rw [hv]
    exact mem_updateFirstById _ (otpMatches e code) s.records r hfind hdist
  · intro t2
    have hnone : findOtp (verifyOtp s e code now).2 e code = none := by
      rw [hv]
      exact find?_updateFirstById_none (otpMatches e code) _ hf
        s.records r hfind hdist hcount
    rw [verifyOtp_invalid t2 hnone]
  · intro s0 h
    exact verifyOtp_invalid now h

theorem C6_witness :
    (verifyOtp (verifyOtp otpStore1 "a@b.com" "123456" 600000).2
      "a@b.com" "123456" 700000).1 = .invalid :=
  (C6_verify_single_use otpStore1 "a@b.com" "123456" 600000 otp1
    (List.pairwise_singleton _ _) (by decide) rfl rfl).2.2.1 700000

/-- C7: when verify finds the matching unverified record and its age
exceeds 10 minutes, the record is deleted and the outcome is Expired;
any subsequent verify with the same code then fails as Invalid. When the
age is at most 10 minutes, verification succeeds. Unique record ids and
at most one stored match are assumed. -/
theorem C7_verify_expiry (s : OtpStore) (e code : String) (now : Int)
    (r : OtpRecord)
    (hdist : s.records.Pairwise (fun a b => a.rid ≠ b.rid))
    (hcount : (s.records.filter (otpMatches e code)).length ≤ 1)
    (hfind : findOtp s e code = some r) :
    (otpIsExpired now r.createdAt = true →
      (verifyOtp s e code now).1 = .expired ∧
      r ∉ (verifyOtp s e code now).2.records ∧
      ∀ t2, (verifyOtp (verifyOtp s e code now).2 e code t2).1 = .invalid) ∧
    (otpIsExpired now r.createdAt = false →
      (verifyOtp s e code now).1 = .verifiedOk now) := by
  constructor
  · intro hexp
    have hv : verifyOtp s e code now =
        (.expired, { s with records := deleteFirstById r.rid s.records }) := by
      simp only [verifyOtp, hfind, hexp, if_true]
    refine ⟨by rw [hv], ?_, ?_⟩
    · rw [hv]
      exact not_mem_deleteFirstById s.records r hdist
    · intro t2
      have hnone : findOtp (verifyOtp s e code now).2 e code = none := by
        rw [hv]
        exact find?_deleteFirstById_none (otpMatches e code)
          s.records r hfind hdist hcount
      rw [verifyOtp_invalid t2 hnone]
  · intro hfresh
    simp only [verifyOtp, hfind, hfresh, Bool.false_eq_true, if_false]

theorem C7_witness :
    (verifyOtp otpStore1 "a@b.com" "123456" 600001).1 = .expired :=
  ((C7_verify_expiry otpStore1 "a@b.com" "123456" 600001 otp1
    (List.pairwise_singleton _ _) (by decide) rfl).1 rfl).1

/-- C4: PUT /api/cart/update rejects negative quantities as
InvalidInput; with quantity 0 it removes the line entirely (one fewer
line, totals recomputed over the remaining items); with positive
quantity it re-validates stock against the catalog (InsufficientStock
when `stock < q`), sets the line quantity to the absolute value `q` (not
additively) and refreshes `addedAt`; and it reports NotFound when the
user has no active cart or the product has no line in the cart. -/
theorem C4_updateItem (cat : List Product) (s : CartStore) (u pid : Nat)
    (q now : Int) :
    (q < 0 → updateItem cat s u pid q now = .error .invalidQuantity) ∧
    (0 ≤ q → findActiveCart s u = none →
      updateItem cat s u pid q now = .error .cartNotFound) ∧
    (∀ cart, 0 ≤ q → findActiveCart s u = some cart →
      findItem cart.items pid = none →
      updateItem cat s u pid q now = .error .itemNotFound) ∧
    (∀ cart it, findActiveCart s u = some cart →
      findItem cart.items pid = some it →
      updateItem cat s u pid 0 now =
        .ok (updateRemovalCart cart pid now,
             s.replaceCart (updateRemovalCart cart pid now)) ∧
      (updateRemovalCart cart pid now).items.length + 1 = cart.items.length ∧
      (updateRemovalCart cart pid now).totalAmount
        = specTotalAmount (updateRemovalCart cart pid now).items ∧
      (updateRemovalCart cart pid now).totalItems
        = specTotalItems (updateRemovalCart cart pid now).items) ∧
    (∀ cart it P, 0 < q → findActiveCart s u = some cart →
      findItem cart.items pid = some it → findProduct cat pid = some P →
      (P.stock < q →
        updateItem cat s u pid q now = .error (.insufficientStock P.stock)) ∧
      (¬ P.stock < q →
        updateItem cat s u pid q now =
          .ok (updateSetCart cart pid q now,
               s.replaceCart (updateSetCart cart pid q now)) ∧
        findItem (updateSetCart cart pid q now).items pid =
          some { it with quantity := q, addedAt := now } ∧
        (updateSetCart cart pid q now).totalAmount
          = specTotalAmount (updateSetCart cart pid q now).items ∧
        (updateSetCart cart pid q now).totalItems
          = specTotalItems (updateSetCart cart pid q now).items)) := by
  refine ⟨?_, ?_, ?_, ?_, ?_⟩
  · intro hq
    exact updateItem_neg hq
  · intro hq hfind
    exact updateItem_nocart (by omega) hfind
  · intro cart hq hfind hit
    exact updateItem_noitem (by omega) hfind hit
  · intro cart it hfind hit
    refine ⟨updateItem_zero hfind hit, ?_, ?_, ?_⟩
    · exact length_removeFirstItem pid cart.items it hit
    · exact computeTotalAmount_eq _
    · exact computeTotalItems_eq _
  · intro cart it P hq hfind hit hprod
    constructor
    · intro hstock
      exact updateItem_pos_insufficient hq hfind hit hprod hstock
    · intro hstock
      refine ⟨updateItem_pos_ok hq hfind hit hprod hstock, ?_, ?_, ?_⟩
      · exact findItem_setFirstItemQty pid q now cart.items it hit
      · exact computeTotalAmount_eq _
      · exact computeTotalItems_eq _

theorem C4_witness :
    updateItem lineCatalog lineStore 7 1 0 55 =
      .ok (updateRemovalCart lineCart 1 55,
           lineStore.replaceCart (updateRemovalCart lineCart 1 55)) :=
  ((C4_updateItem lineCatalog lineStore 7 1 0 55).2.2.2.1
    lineCart lineItem rfl rfl).1

/-- C10: with a positive quantity PUT /api/cart/update looks the product
up in the catalog and fails 404 Product-not-found when it is gone, even
though the line is still in the cart; with quantity 0 the removal never
consults the catalog: for every catalog — including one without the
product — the call returns the same successful removal. -/
theorem C10_catalog_consultation (cat : List Product) (s : CartStore)
    (u pid : Nat) (q now : Int) (cart : Cart) (it : CartItem)
    (hfind : findActiveCart s u = some cart)
    (hit : findItem cart.items pid = some it) :
    (0 < q → findProduct cat pid = none →
      updateItem cat s u pid q now = .error .productNotFound) ∧
    (∀ cat2 : List Product,
      updateItem cat2 s u pid 0 now =
        .ok (updateRemovalCart cart pid now,
             s.replaceCart (updateRemovalCart cart pid now))) := by
  constructor
  · intro hq hprod
    exact updateItem_pos_prod_missing hq hfind hit hprod
  · intro cat2
    exact updateItem_zero hfind hit

theorem C10_witness :
    updateItem ([] : List Product) lineStore 7 1 0 99 =
      .ok (updateRemovalCart lineCart 1 99,
           lineStore.replaceCart (updateRemovalCart lineCart 1 99)) :=
  (C10_catalog_consultation [] lineStore 7 1 5 99 lineCart lineItem rfl rfl).2 []

/-- C3 (amended): with the product present and `0 < q`, POST
/api/cart/add fails with an InsufficientStock-kind error exactly when
`stock < q` (no existing line) or `stock < existingQty + q` (existing
line with nonnegative quantity). The message reports the remaining
allowable quantity `stock - existingQty` only when `q ≤ stock`: the
handler checks `stock < q` first — before even fetching the cart — so
when `stock < q` the error reports the raw stock even for an existing
line. Adding exactly the remaining stock succeeds and changes only the
affected line. -/
theorem C3_amended_stock (cat : List Product) (s : CartStore) (u pid : Nat)
    (q now : Int) (P : Product) (hq : 0 < q)
    (hprod : findProduct cat pid = some P) :
    ((∀ c0, findActiveCart s u = some c0 → findItem c0.items pid = none) →
      ((∃ e, addItem cat s u pid q now = .error e) ↔ P.stock < q) ∧
      (P.stock < q →
        addItem cat s u pid q now = .error (.insufficientStock P.stock))) ∧
    (∀ c0 it, findActiveCart s u = some c0 →
      findItem c0.items pid = some it → 0 ≤ it.quantity →
      ((∃ e, addItem cat s u pid q now = .error e) ↔
        P.stock < it.quantity + q) ∧
      (P.stock < q →
        addItem cat s u pid q now = .error (.insufficientStock P.stock)) ∧
      (¬ P.stock < q → P.stock < it.quantity + q →
        addItem cat s u pid q now =
          .error (.insufficientStockTotal q (P.stock - it.quantity)))) ∧
    ((∀ c0, findActiveCart s u = some c0 → findItem c0.items pid = none) →
      q = P.stock →
      ∀ c0, findActiveCart s u = some c0 →
        addItem cat s u pid q now =
          .ok (appendLineCart c0 pid P q now,
               s.replaceCart (appendLineCart c0 pid P q now))) ∧
    (∀ c0 it, findActiveCart s u = some c0 →
      findItem c0.items pid = some it → 0 ≤ it.quantity →
      q = P.stock - it.quantity →
      addItem cat s u pid q now =
        .ok (bumpLineCart c0 pid q now,
             s.replaceCart (bumpLineCart c0 pid q now)) ∧
      (bumpLineCart c0 pid q now).items.filter (fun i => !(isLineFor pid i)) =
        c0.items.filter (fun i => !(isLineFor pid i)) ∧
      findItem (bumpLineCart c0 pid q now).items pid =
        some { it with quantity := it.quantity + q, addedAt := now }) := by
  refine ⟨?_, ?_, ?_, ?_⟩
  · intro hno
    constructor
    · constructor
      · rintro ⟨e, herr⟩
        by_contra hstock
        cases hc : findActiveCart s u with
        | some c0 =>
          rw [addItem_existing_cart hq hprod hstock hc,
            addItemToCart_none (hno c0 hc)] at herr
          cases herr
        | none =>
          rw [addItem_fresh_cart hq hprod hstock hc] at herr
          cases herr
      · intro hstock
        exact ⟨_, addItem_insufficient_raw hq hprod hstock⟩
    · intro hstock
      exact addItem_insufficient_raw hq hprod hstock
  · intro c0 it hc hit hqty
    refine ⟨⟨?_, ?_⟩, ?_, ?_⟩
    · rintro ⟨e, herr⟩
      by_contra htot
      have hstock : ¬ P.stock < q := by omega
      rw [addItem_existing_cart hq hprod hstock hc,
        addItemToCart_some_ok hit htot] at herr
      cases herr
    · intro htot
      by_cases hstock : P.stock < q
      · exact ⟨_, addItem_insufficient_raw hq hprod hstock⟩
      · refine ⟨.insufficientStockTotal q (P.stock - it.quantity), ?_⟩
        rw [addItem_existing_cart hq hprod hstock hc,
          addItemToCart_some_insufficient hit htot]
    · intro hstock
      exact addItem_insufficient_raw hq hprod hstock
    · intro hstock htot
      rw [addItem_existing_cart hq hprod hstock hc,
        addItemToCart_some_insufficient hit htot]
  · intro hno hqs c0 hc
    have hstock : ¬ P.stock < q := by omega
    rw [addItem_existing_cart hq hprod hstock hc,
      addItemToCart_none (hno c0 hc)]
  · intro c0 it hc hit hqty hqs
    have hstock : ¬ P.stock < q := by omega
    have htot : ¬ P.stock < it.quantity + q := by omega
    refine ⟨?_, ?_, ?_⟩
    · rw [addItem_existing_cart hq hprod hstock hc,
        addItemToCart_some_ok hit htot]
    · exact filter_ne_bumpFirstItem pid q now c0.items
    · exact findItem_bumpFirstItem pid q now c0.items it hit

/-- C3 counterexample: user 7's cart holds 2 units of product 1, whose
stock is 3. Adding 5 more is an existing-line insufficient-stock case
(3 < 2 + 5), so per the claim the error should report the remaining
allowable quantity 3 - 2 = 1; the code instead returns the raw-stock
error reporting 3 (the `stock < q` check runs before the cart is read). -/
theorem C3_counterexample :
    findActiveCart lineStore 7 = some lineCart ∧
    findItem lineCart.items 1 = some lineItem ∧
    lineItem.quantity = 2 ∧
    findProduct lineCatalog 1 =
      some { pid := 1, name := "p", imageUrl := "", price := 10, stock := 3 } ∧
    addItem lineCatalog lineStore 7 1 5 1 = .error (.insufficientStock 3) ∧
    CartError.insufficientStock 3 ≠
      CartError.insufficientStockTotal 5 (3 - 2) :=
  ⟨rfl, rfl, rfl, rfl, rfl, by decide⟩

theorem C3_witness :
    addItem lineCatalog lineStore 7 1 1 50 =
      .ok (bumpLineCart lineCart 1 1 50,
           lineStore.replaceCart (bumpLineCart lineCart 1 1 50)) :=
  ((C3_amended_stock lineCatalog lineStore 7 1 1 50
      { pid := 1, name := "p", imageUrl := "", price := 10, stock := 3 }
      (by decide) rfl).2.2.2 lineCart lineItem rfl rfl (by decide) (by decide)).1

/-- C2: two successive successful adds of the same product for the same
user — the cart initially having no line for it — leave exactly one line
for that product, with quantity `q1 + q2`, `addedAt` refreshed to the
second call's time, and `priceAtTime`/`productName`/`productImage` equal
to the snapshot taken from the catalog at the first call, for an
arbitrary (possibly repriced) catalog at the second call; the resulting
cart is persisted as the user's active cart. -/
theorem C2_price_snapshot (cat1 cat2 : List Product) (s : CartStore)
    (u pid : Nat) (q1 q2 t1 t2 : Int) (P1 : Product)
    (c1 : Cart) (s1 : CartStore) (c2 : Cart) (s2 : CartStore)
    (hWF : s.WF)
    (hno : ∀ c0, findActiveCart s u = some c0 → findItem c0.items pid = none)
    (hp1 : findProduct cat1 pid = some P1)
    (h1 : addItem cat1 s u pid q1 t1 = .ok (c1, s1))
    (h2 : addItem cat2 s1 u pid q2 t2 = .ok (c2, s2)) :
    (c2.items.filter (isLineFor pid)).length = 1 ∧
    findItem c2.items pid = some (newLine pid P1 (q1 + q2) t2) ∧
    findActiveCart s2 u = some c2 := by
  obtain ⟨hq1, P, hprod1, hstock1, hcase1⟩ := addItem_ok_inv h1
  have hPP : P = P1 := by
    rw [hprod1] at hp1
    injection hp1
  subst hPP
  have hitems1 : ∃ items0, c1.items = items0 ++ [newLine pid P q1 t1] ∧
      findItem items0 pid = none := by
    rcases hcase1 with ⟨cart0, hfind0, hadd, rfl⟩ | ⟨hnone, cart1x, hadd, hc1, hs1⟩
    · have hnone0 := hno cart0 hfind0
      rw [addItemToCart_none hnone0] at hadd
      have heq : appendLineCart cart0 pid P q1 t1 = c1 := by injection hadd
      refine ⟨cart0.items, ?_, hnone0⟩
      rw [← heq]
      rfl
    · rw [addItemToCart_none (by rfl)] at hadd
      have heq : appendLineCart (freshCart u t1) pid P q1 t1 = cart1x := by
        injection hadd
      refine ⟨[], ?_, rfl⟩
      rw [hc1, ← heq]
      rfl
  obtain ⟨items0, hc1items, hnone0⟩ := hitems1
  obtain ⟨hfa1, hWF1⟩ := addItem_ok_state hWF h1
  have hfi1 : findItem c1.items pid = some (newLine pid P q1 t1) := by
    rw [hc1items, findItem_append_of_none hnone0]
    unfold findItem
    exact List.find?_cons_of_pos _ (by simp [isLineFor, newLine])
  obtain ⟨hq2, P2, hprod2, hstock2, hcase2⟩ := addItem_ok_inv h2
  rcases hcase2 with ⟨cart0b, hfind0b, haddb, rfl⟩ | ⟨hnoneb, _, _, _, _⟩
  · rw [hfa1] at hfind0b
    have hcc : c1 = cart0b := by injection hfind0b
    subst hcc
    have hc2 : c2 = bumpLineCart c1 pid q2 t2 := by
      by_cases hst : P2.stock < (newLine pid P q1 t1).quantity + q2
      · rw [addItemToCart_some_insufficient hfi1 hst] at haddb
        cases haddb
      · rw [addItemToCart_some_ok hfi1 hst] at haddb
        injection haddb with h3
        exact h3.symm
    have hfil0 : items0.filter (isLineFor pid) = [] := by
      apply List.filter_eq_nil_iff.mpr
      intro a ha
      exact List.find?_eq_none.mp hnone0 a ha
    have hitems2 : c2.items = items0 ++ [newLine pid P (q1 + q2) t2] := by
      rw [hc2]
      show bumpFirstItem pid q2 t2 c1.items = _
      rw [hc1items, bumpFirstItem_append_of_none pid q2 t2 items0 _ hnone0]
      simp only [bumpFirstItem, newLine]
      simp
    refine ⟨?_, ?_, ?_⟩
    · rw [hitems2, List.filter_append, hfil0]
      simp [isLineFor, newLine]
    · rw [hitems2, findItem_append_of_none hnone0]
      unfold findItem
      exact List.find?_cons_of_pos _ (by simp [isLineFor, newLine])
    · exact (addItem_ok_state hWF1 h2).1
  · rw [hfa1] at hnoneb
    cases hnoneb

def repricedCatalog : List Product :=
  [{ pid := 1, name := "p1x", imageUrl := "imgx", price := 999, stock := 5 }]

def witBumpCart : Cart :=
  { cartId := 10, userId := 7,
    items := [{ productId := 1, productName := "p1", productImage := "img",
                quantity := 3, priceAtTime := 100, addedAt := 2000 }],
    totalAmount := 300, totalItems := 3, status := "active",
    createdAt := 1000, updatedAt := 2000 }

def witBumpStore : CartStore := { carts := [witBumpCart], nextId := 11 }

theorem C2_witness :
    findItem witBumpCart.items 1 =
      some (newLine 1
        { pid := 1, name := "p1", imageUrl := "img", price := 100, stock := 5 }
        (2 + 1) 2000) :=
  (C2_price_snapshot sampleCatalog repricedCatalog emptyCarts 7 1 2 1 1000 2000
    { pid := 1, name := "p1", imageUrl := "img", price := 100, stock := 5 }
    witAddCart witAddStore witBumpCart witBumpStore
    ⟨List.Pairwise.nil, fun c h => absurd h (List.not_mem_nil c)⟩
    (fun _ h => Option.noConfusion h)
    rfl rfl rfl).2.1
